import Mathlib

/-!
Shallow embedding of the hotspot-interaction and game-state engine of the
tank-adventure-game repository (a point-and-click adventure game).

The embedding translates, from the TypeScript source:
  * `GameStateManager` (flags, counters, inventory, room states, persistence),
  * the array-based `Hotspot` entity with its two-pass `findAction` search,
    `getAvailableVerbs` and `executeAction`,
  * `HotspotManager` (hover tracking, `interact`, `interactWith`, `setEnabled`),
  * `ResponseGeneratorClass.generate` (the optional response post-processor).

JavaScript `Map`s become association lists (`set` replaces the binding in
place), JS arrays become `List`, optional string fields become `Option String`
with JS truthiness (`""` and `undefined` are both falsy) modelled explicitly,
and the singleton's mutable fields become explicit state records threaded
through every operation.
-/

namespace Adventure

/-- `InventoryItem` record of `GameStateManager`. -/
structure InventoryItem where
  id : String
  name : String
  description : String
  icon : String
  combinableWith : Option (List String) := none
  combineResult : Option String := none
deriving DecidableEq, Repr

/-- Per-room state record. The TypeScript `objectStates` holds opaque
(`unknown`) values and `characterPositions` holds `{x, y}` pairs; the opaque
values are represented by an arbitrary printable payload type (`String`),
which no operation of the store ever inspects. -/
structure RoomState where
  hasVisited : Bool
  objectStates : List (String × String)
  characterPositions : List (String × (Int × Int))
deriving DecidableEq, Repr

/-- The mutable fields of the `GameStateManager` singleton. -/
structure GState where
  flags : List (String × Bool)
  counters : List (String × Int)
  inventory : List InventoryItem
  roomStates : List (String × RoomState)
  currentRoom : String
deriving DecidableEq, Repr

/-- The state of a freshly constructed `GameStateManager`. -/
def GState.empty : GState :=
  { flags := [], counters := [], inventory := [], roomStates := [], currentRoom := "" }

/-- `Map.get` on an association list (first binding wins, as JS `Map` keys
are unique). -/
def alistGet {α : Type} (l : List (String × α)) (k : String) : Option α :=
  (l.find? (fun kv => kv.fst == k)).map (·.snd)

/-- `Map.set`: replace the binding in place if the key is present, else
append (JS `Map.set` keeps the original insertion position). -/
def alistSet {α : Type} (l : List (String × α)) (k : String) (v : α) :
    List (String × α) :=
  if (l.find? (fun kv => kv.fst == k)).isSome then
    l.map (fun kv => if kv.fst == k then (k, v) else kv)
  else
    l ++ [(k, v)]

/-- `GameStateManager.setFlag` (the change-notification callbacks are
presentation-side and carry no state of their own). -/
def GState.setFlag (s : GState) (name : String) (value : Bool) : GState :=
  { s with flags := alistSet s.flags name value }

/-- `GameStateManager.getFlag`: `this.flags.get(name) ?? false`. -/
def GState.getFlag (s : GState) (name : String) : Bool :=
  (alistGet s.flags name).getD false

/-- `GameStateManager.setCounter`. -/
def GState.setCounter (s : GState) (name : String) (value : Int) : GState :=
  { s with counters := alistSet s.counters name value }

/-- `GameStateManager.getCounter`: `this.counters.get(name) ?? 0`. -/
def GState.getCounter (s : GState) (name : String) : Int :=
  (alistGet s.counters name).getD 0

/-- `GameStateManager.incrementCounter`. -/
def GState.incrementCounter (s : GState) (name : String) (amount : Int) :
    Int × GState :=
  let newValue := s.getCounter name + amount
  (newValue, s.setCounter name newValue)

/-- `GameStateManager.hasItem`: `this.inventory.some(item => item.id === itemId)`. -/
def GState.hasItem (s : GState) (itemId : String) : Bool :=
  s.inventory.any (fun item => item.id == itemId)

/-- `GameStateManager.getItem`: `this.inventory.find(item => item.id === itemId)`. -/
def GState.getItem (s : GState) (itemId : String) : Option InventoryItem :=
  s.inventory.find? (fun item => item.id == itemId)

/-- `GameStateManager.addItem`: refuse a duplicate id, else push. Returns
the success flag together with the updated store. -/
def GState.addItem (s : GState) (item : InventoryItem) : Bool × GState :=
  if s.hasItem item.id then
    (false, s)
  else
    (true, { s with inventory := s.inventory ++ [item] })

/-- `findIndex` + `splice(index, 1)`: remove the first list entry with the
given id, leaving the rest untouched. -/
def removeFirstById : List InventoryItem → String → List InventoryItem
  | [], _ => []
  | item :: rest, itemId =>
    if item.id == itemId then rest else item :: removeFirstById rest itemId

/-- `GameStateManager.removeItem`. -/
def GState.removeItem (s : GState) (itemId : String) : Bool × GState :=
  if s.hasItem itemId then
    (true, { s with inventory := removeFirstById s.inventory itemId })
  else
    (false, s)

/-- `GameStateManager.combineItems`: both items must be found, at least one
must list the other in `combinableWith` (the optional chaining
`item.combinableWith?.includes(...)` is falsy when the field is absent);
on success both inputs are removed and the result pushed through
`removeItem`/`addItem`, whose returned flags the source ignores. -/
def GState.combineItems (s : GState) (itemId1 itemId2 : String)
    (resultItem : InventoryItem) : Bool × GState :=
  match s.getItem itemId1, s.getItem itemId2 with
  | some item1, some item2 =>
    let canCombine :=
      (item1.combinableWith.getD []).contains itemId2 ||
      (item2.combinableWith.getD []).contains itemId1
    if canCombine then
      let s1 := (s.removeItem itemId1).snd
      let s2 := (s1.removeItem itemId2).snd
      let s3 := (s2.addItem resultItem).snd
      (true, s3)
    else
      (false, s)
  | _, _ => (false, s)

/-- `GameStateManager.reset`. -/
def GState.reset (_s : GState) : GState := GState.empty

/-- The five fields of a parsed save blob as `load` sees them after
`JSON.parse`.  `flags`, `counters` and `roomStates` are read through
`Object.entries`, which throws on `undefined`/`null`; `none` models that
case.  `inventory` and `currentRoom` are assigned verbatim without any
operation that can throw, so they are modelled at their expected types
(a blob whose `inventory`/`currentRoom` carry junk is assigned as-is and
can only misbehave after `load` has returned). -/
structure RawSaveData where
  flags : Option (List (String × Bool))
  counters : Option (List (String × Int))
  inventory : List InventoryItem
  roomStates : Option (List (String × RoomState))
  currentRoom : String
deriving DecidableEq, Repr

/-- Outcome of `JSON.parse` on the stored blob: either the parser throws
(`fail`) or it yields a value whose relevant fields are described by
`RawSaveData`. -/
inductive ParseOutcome where
  | fail
  | ok (d : RawSaveData)
deriving DecidableEq, Repr

/-- `GameStateManager.load`.  `none` models an absent slot
(`localStorage.getItem` returned `null`).  The body mirrors the source's
assignment sequence inside `try { ... } catch { return false }`: each
`Object.entries` on a missing field throws at that point, so every field
already assigned keeps its new value while the remaining ones keep their
old value, and the call returns `false`. -/
def GState.load (s : GState) (blob : Option ParseOutcome) : Bool × GState :=
  match blob with
  | none => (false, s)
  | some ParseOutcome.fail => (false, s)
  | some (ParseOutcome.ok d) =>
    match d.flags with
    | none => (false, s)
    | some fl =>
      let s1 := { s with flags := fl }
      match d.counters with
      | none => (false, s1)
      | some cs =>
        let s2 := { s1 with counters := cs }
        let s3 := { s2 with inventory := d.inventory }
        match d.roomStates with
        | none => (false, s3)
        | some rs =>
          (true, { s3 with roomStates := rs, currentRoom := d.currentRoom })

/-- `InteractionVerb`. -/
inductive Verb where
  | LOOK | USE | TAKE | TALK | PUSH | PULL
deriving DecidableEq, Repr

/-- `verb.toLowerCase()` as used in the canned rejection message. -/
def Verb.lower : Verb → String
  | .LOOK => "look"
  | .USE => "use"
  | .TAKE => "take"
  | .TALK => "talk"
  | .PUSH => "push"
  | .PULL => "pull"

/-- The verb's literal string value (the TypeScript type is a union of
uppercase string literals), as passed to the response generator. -/
def Verb.str : Verb → String
  | .LOOK => "LOOK"
  | .USE => "USE"
  | .TAKE => "TAKE"
  | .TALK => "TALK"
  | .PUSH => "PUSH"
  | .PULL => "PULL"

/-- Side effects performed by `onExecute` callbacks.  In the source these
are arbitrary closures over the global `gameState` and the scene's
`hotspotManager`; the scene files use them to set flags, add or remove
inventory items, bump counters, change rooms and enable/disable hotspots
(scene-transition and camera calls are presentation-only), so they are
embedded as that operation vocabulary, interpreted by `runEffect`. -/
inductive GEffect where
  | setFlag (name : String) (value : Bool)
  | setCounter (name : String) (value : Int)
  | incrementCounter (name : String) (amount : Int)
  | addItem (item : InventoryItem)
  | removeItem (itemId : String)
  | setCurrentRoom (roomId : String)
  | setHotspotEnabled (hotspotId : String) (enabled : Bool)

/-- `HotspotAction`.  `requiresItem` is an optional string field; its JS
truthiness (absent and `""` both falsy) is handled at the use sites.
`enabled` is a zero-argument predicate closed over the game state, and
`onExecute` is modelled by `GEffect` (see there). -/
structure HotspotAction where
  verb : Verb
  response : String
  requiresItem : Option String := none
  onExecute : Option (List GEffect) := none
  enabled : Option (GState → Bool) := none

/-- JS truthiness of an optional string: `undefined` and `""` are falsy. -/
def truthy : Option String → Bool
  | none => false
  | some s => !(s == "")

/-- The `action.enabled && !action.enabled()` guard: an absent predicate
counts as enabled, otherwise the closure is evaluated against the current
game state. -/
def actionEnabled (s : GState) (a : HotspotAction) : Bool :=
  match a.enabled with
  | none => true
  | some p => p s

/-- `Hotspot`: the fields of the entity that take part in the game logic
(position, sprite and debug overlay are presentation-only). -/
structure Hotspot where
  hotspotId : String
  hotspotName : String
  actions : List HotspotAction
  isEnabled : Bool := true

/-- `Hotspot.setEnabled`: records the flag (and, in the source, shows or
hides the sprite and attaches/detaches pointer interactivity — the latter
is modelled at event delivery, see `pointerOver`). -/
def Hotspot.setEnabled (h : Hotspot) (enabled : Bool) : Hotspot :=
  { h with isEnabled := enabled }

/-- `Hotspot.findAction`: a first pass looks for a verb match whose
`requiresItem` strictly equals the held id (only entered when `heldItemId`
is truthy), then a second pass accepts any verb match whose enabled check
passes and whose `requiresItem`, when truthy, equals the held id. -/
def findAction (actions : List HotspotAction) (s : GState) (verb : Verb)
    (heldItemId : Option String) : Option HotspotAction :=
  let pass1 : Option HotspotAction :=
    if truthy heldItemId then
      actions.find? (fun a =>
        a.verb == verb && a.requiresItem == heldItemId && actionEnabled s a)
    else none
  match pass1 with
  | some a => some a
  | none =>
    actions.find? (fun a =>
      a.verb == verb && actionEnabled s a &&
        !(truthy a.requiresItem && a.requiresItem != heldItemId))

/-- `Hotspot.hasAction`. -/
def hasAction (actions : List HotspotAction) (s : GState) (verb : Verb)
    (heldItemId : Option String) : Bool :=
  (findAction actions s verb heldItemId).isSome

/-- `Hotspot.getAvailableVerbs`: every action whose enabled check passes
contributes its verb to a `Set` (insertion-ordered, duplicates ignored);
the held-item argument is deliberately unused. -/
def getAvailableVerbs (actions : List HotspotAction) (s : GState)
    (_heldItemId : Option String) : List Verb :=
  actions.foldl
    (fun verbs a =>
      if actionEnabled s a then
        if verbs.contains a.verb then verbs else verbs ++ [a.verb]
      else verbs)
    []

/-- The canned rejection string: `You can't ${verb.toLowerCase()} that.` -/
def cantMsg (verb : Verb) : String :=
  "You can\x27t " ++ verb.lower ++ " that."

/-- The hotspots owned by a scene's `HotspotManager` (a JS `Map` keyed by
hotspot id) together with the `hoveredHotspot` reference, held as the
hovered hotspot's id. -/
structure World where
  game : GState
  hotspots : List Hotspot
  hovered : Option String

/-- Interpret one `onExecute` operation against the game state and the
scene's hotspots.  `setHotspotEnabled` is `HotspotManager.setEnabled`:
look the hotspot up by id and flip its flag (a miss is a no-op). -/
def runEffect (w : World) : GEffect → World
  | .setFlag name value => { w with game := w.game.setFlag name value }
  | .setCounter name value => { w with game := w.game.setCounter name value }
  | .incrementCounter name amount =>
    { w with game := (w.game.incrementCounter name amount).snd }
  | .addItem item => { w with game := (w.game.addItem item).snd }
  | .removeItem itemId => { w with game := (w.game.removeItem itemId).snd }
  | .setCurrentRoom roomId =>
    { w with game := { w.game with currentRoom := roomId } }
  | .setHotspotEnabled hotspotId enabled =>
    { w with hotspots := w.hotspots.map (fun h =>
        if h.hotspotId == hotspotId then h.setEnabled enabled else h) }

/-- Run an `onExecute` callback: its operations in order. -/
def runEffects (w : World) (effects : List GEffect) : World :=
  effects.foldl runEffect w

/-- `Hotspot.executeAction`: reject the verb outright when no enabled
action carries it; otherwise resolve through `findAction`, and when that
fails fall back to the first enabled item-requiring action's own response
(the "you need something" message) without running anything; a resolved
action runs its `onExecute` (if any) and returns its response. -/
def executeAction (h : Hotspot) (verb : Verb) (heldItemId : Option String)
    (w : World) : String × World :=
  let anyAction := h.actions.find? (fun a => a.verb == verb && actionEnabled w.game a)
  match anyAction with
  | none => (cantMsg verb, w)
  | some _ =>
    match findAction h.actions w.game verb heldItemId with
    | none =>
      let itemAction := h.actions.find? (fun a =>
        a.verb == verb && truthy a.requiresItem && actionEnabled w.game a)
      match itemAction with
      | some a => (a.response, w)
      | none => (cantMsg verb, w)
    | some matchingAction =>
      let w' := runEffects w (matchingAction.onExecute.getD [])
      (matchingAction.response, w')

/-- Look a hotspot up by id, as the manager's `Map.get`. -/
def World.find (w : World) (hotspotId : String) : Option Hotspot :=
  w.hotspots.find? (fun h => h.hotspotId == hotspotId)

/-- A `pointerover` event on a hotspot, as wired in
`HotspotManager.register`: the handler stores the hotspot as
`hoveredHotspot`.  Phaser only delivers pointer events to interactive
objects, and `Hotspot.setEnabled(false)` calls `disableInteractive()`, so
delivery is gated on the hotspot being enabled. -/
def pointerOver (w : World) (hotspotId : String) : World :=
  match w.find hotspotId with
  | some h => if h.isEnabled then { w with hovered := some h.hotspotId } else w
  | none => w

/-- A `pointerout` event, as wired in `HotspotManager.register`: clears
`hoveredHotspot` only when it still points at this hotspot. -/
def pointerOut (w : World) (hotspotId : String) : World :=
  if w.hovered == some hotspotId then { w with hovered := none } else w

/-- `HotspotManager.getHovered`. -/
def getHovered (w : World) : Option String := w.hovered

/-- `HotspotManager.interactWith`: look the hotspot up by id and run
`executeAction` on it directly (no hover check, no enabled check, no
response post-processing). -/
def interactWith (w : World) (hotspotId : String) (verb : Verb)
    (heldItemId : Option String) : Option String × World :=
  match w.find hotspotId with
  | none => (none, w)
  | some h =>
    let (r, w') := executeAction h verb heldItemId w
    (some r, w')

/-- The mutable fields of `ResponseGeneratorClass`: the enabled switch and
the per-session response cache keyed by `verb:target:baseResponse`. -/
structure RGState where
  enabled : Bool := true
  cache : List (String × String) := []

/-- The parameter record of `ResponseGeneratorClass.generate`. -/
structure GenParams where
  verb : String
  target : String
  baseResponse : String
  context : Option String := none

/-- What one `fetch` of the edge function can come back with: a thrown
exception (network failure), a non-ok HTTP status, or a JSON body whose
`response` field is the given optional string. -/
inductive NetResult where
  | exn
  | httpError
  | ok (response : Option String)

/-- The cache key `${verb}:${target}:${baseResponse}`. -/
def cacheKey (p : GenParams) : String :=
  p.verb ++ ":" ++ p.target ++ ":" ++ p.baseResponse

/-- `ResponseGeneratorClass.generate`.  The network is an oracle argument
mapping the request to its outcome; it is only consulted on the path that
actually performs the `fetch`.  `data.response || baseResponse` falls back
when the field is absent or falsy (`""`). -/
def generate (net : GenParams → NetResult) (rg : RGState) (p : GenParams) :
    String × RGState :=
  if !rg.enabled then
    (p.baseResponse, rg)
  else
    match alistGet rg.cache (cacheKey p) with
    | some cached => (cached, rg)
    | none =>
      match net p with
      | .exn => (p.baseResponse, rg)
      | .httpError => (p.baseResponse, rg)
      | .ok response =>
        let generated :=
          match response with
          | none => p.baseResponse
          | some r => if r == "" then p.baseResponse else r
        (generated, { rg with cache := alistSet rg.cache (cacheKey p) generated })

/-- `HotspotManager.interact`: nothing hovered gives `null`; otherwise the
hovered hotspot's `executeAction` produces the base response (and its side
effects), the click subscribers are notified (presentation-only), and the
base response is passed through `responseGenerator.generate` with the
hotspot's display name as target and a `Player is holding: <id>` context
when an item is held. -/
def interact (w : World) (rg : RGState) (net : GenParams → NetResult)
    (verb : Verb) (heldItemId : Option String) :
    Option String × World × RGState :=
  match w.hovered with
  | none => (none, w, rg)
  | some hid =>
    match w.find hid with
    | none => (none, w, rg)
    | some h =>
      let (baseResponse, w') := executeAction h verb heldItemId w
      let (dynamicResponse, rg') := generate net rg
        { verb := verb.str
          target := h.hotspotName
          baseResponse := baseResponse
          context := heldItemId.map (fun i => "Player is holding: " ++ i) }
      (some dynamicResponse, w', rg')

/-- The store states reachable through the public mutation API named by
the uniqueness claim: the fresh store, then `addItem`, `removeItem`,
`combineItems`, `load` (of an arbitrary stored blob) and `reset`. -/
inductive Reachable : GState → Prop where
  | init : Reachable GState.empty
  | addItem {s} (item : InventoryItem) :
      Reachable s → Reachable (s.addItem item).snd
  | removeItem {s} (itemId : String) :
      Reachable s → Reachable (s.removeItem itemId).snd
  | combineItems {s} (itemId1 itemId2 : String) (resultItem : InventoryItem) :
      Reachable s → Reachable (s.combineItems itemId1 itemId2 resultItem).snd
  | load {s} (blob : Option ParseOutcome) :
      Reachable s → Reachable (s.load blob).snd
  | reset {s} : Reachable s → Reachable s.reset

/-- Whether a stored blob's own inventory carries pairwise-distinct ids
(vacuously true when the blob is absent or does not parse). -/
def blobInventoryOk : Option ParseOutcome → Prop
  | some (ParseOutcome.ok d) => (d.inventory.map (·.id)).Nodup
  | _ => True

/-- Store states reachable through the same API when every loaded blob's
inventory has unique ids (the amended hypothesis: blobs written by `save`
always satisfy it). -/
inductive ReachableU : GState → Prop where
  | init : ReachableU GState.empty
  | addItem {s} (item : InventoryItem) :
      ReachableU s → ReachableU (s.addItem item).snd
  | removeItem {s} (itemId : String) :
      ReachableU s → ReachableU (s.removeItem itemId).snd
  | combineItems {s} (itemId1 itemId2 : String) (resultItem : InventoryItem) :
      ReachableU s → ReachableU (s.combineItems itemId1 itemId2 resultItem).snd
  | load {s} (blob : Option ParseOutcome) :
      ReachableU s → blobInventoryOk blob → ReachableU (s.load blob).snd
  | reset {s} : ReachableU s → ReachableU s.reset

/-! ### Spec-side formulation of action resolution

`findActionSpec` is written from the specification's wording of the
resolution order (with presence of an id read as JS truthiness, i.e. the
empty string counts as absent): when a non-empty held-item id is given and
some entry matches the verb with `requiresItem` equal to the held id and a
passing enabled check, the first such entry wins; otherwise the first
entry matching the verb whose enabled check passes and whose non-empty
`requiresItem` (if any) equals the held id wins. -/

/-- The spec's item-specific match: verb matches, `requiresItem` equals
the held id, enabled check (if present) passes. -/
def specItemMatch (s : GState) (verb : Verb) (heldItemId : Option String)
    (a : HotspotAction) : Bool :=
  a.verb == verb && a.requiresItem == heldItemId && actionEnabled s a

/-- The spec's generic match: verb matches, enabled check passes, and the
`requiresItem`, when non-empty, equals the held id. -/
def specGenericMatch (s : GState) (verb : Verb) (heldItemId : Option String)
    (a : HotspotAction) : Bool :=
  a.verb == verb && actionEnabled s a &&
    (match a.requiresItem with
     | none => true
     | some r => r == "" || (some r == heldItemId))

/-- Action resolution as the specification words it: item-specific matches
take precedence over generic ones. -/
def findActionSpec (actions : List HotspotAction) (s : GState) (verb : Verb)
    (heldItemId : Option String) : Option HotspotAction :=
  if truthy heldItemId && actions.any (specItemMatch s verb heldItemId) then
    actions.find? (specItemMatch s verb heldItemId)
  else
    actions.find? (specGenericMatch s verb heldItemId)

/-! ### Concrete fixtures used by witnesses and counterexamples -/

/-- A generic USE action with no item requirement. -/
def gAct : HotspotAction := { verb := Verb.USE, response := "generic" }

/-- A USE action whose `requiresItem` is the empty string — a value the
TypeScript code treats as falsy. -/
def iAct : HotspotAction :=
  { verb := Verb.USE, response := "item", requiresItem := some "" }

/-- The "vines" hotspot action of the spec's disable scenario: cutting the
vines with the machete sets the `vines_cut` flag and disables the hotspot. -/
def vinesAction : HotspotAction :=
  { verb := Verb.USE
    response := "You slash through the thick vines."
    requiresItem := some "machete"
    onExecute := some [GEffect.setFlag "vines_cut" true,
                       GEffect.setHotspotEnabled "vines" false]
    enabled := some (fun s => !(s.getFlag "vines_cut")) }

/-- The "vines" hotspot. -/
def vines : Hotspot :=
  { hotspotId := "vines", hotspotName := "Thick Vines", actions := [vinesAction] }

/-- A scene holding only the vines hotspot, nothing hovered yet. -/
def w0 : World := { game := GState.empty, hotspots := [vines], hovered := none }

/-- The scene after the pointer entered the vines hotspot. -/
def w1 : World := pointerOver w0 "vines"

/-- A response generator that has been switched off. -/
def rgOff : RGState := { enabled := false }

/-- A network on which every request fails. -/
def netDown : GenParams → NetResult := fun _ => NetResult.exn

/-- A locked-door action requiring a (non-empty) key. -/
def doorAction : HotspotAction :=
  { verb := Verb.USE
    response := "The door needs a key."
    requiresItem := some "key"
    onExecute := some [GEffect.setFlag "door_open" true] }

/-- The locked-door hotspot. -/
def door : Hotspot :=
  { hotspotId := "door", hotspotName := "Heavy Door", actions := [doorAction] }

/-- A scene holding only the door hotspot. -/
def wDoor : World := { game := GState.empty, hotspots := [door], hovered := none }

/-- A plain inventory item. -/
def dupItem : InventoryItem := { id := "x", name := "X", description := "", icon := "" }

/-- A store whose inventory already holds the same item twice (a shape the
public API never produces, but a legal value of the state type). -/
def sDup : GState := { GState.empty with inventory := [dupItem, dupItem] }

/-- Flower item, combinable with the rope. -/
def cFlower : InventoryItem :=
  { id := "flower", name := "Exotic Flower", description := "", icon := "flower"
    combinableWith := some ["rope"] }

/-- Rope item. -/
def cRope : InventoryItem := { id := "rope", name := "Rope", description := "", icon := "rope" }

/-- Combination result item. -/
def cHook : InventoryItem := { id := "hook", name := "Grappling Hook", description := "", icon := "hook" }

/-- A store holding exactly the flower and the rope. -/
def sCombine : GState := { GState.empty with inventory := [cFlower, cRope] }

/-- An item whose id collides with the combination result below. -/
def cDecoy : InventoryItem := { id := "hook", name := "Decoy", description := "", icon := "" }

/-- A store holding the flower, the rope and the decoy. -/
def sDecoy : GState := { GState.empty with inventory := [cFlower, cRope, cDecoy] }

/-- A store with one flag set, used to observe what a failed load clobbers. -/
def s4 : GState := { GState.empty with flags := [("torch_lit", true)] }

/-- A stored blob that parses into an object carrying only an (empty)
`flags` field: `Object.entries(saveData.counters)` throws on it after the
flags have already been assigned. -/
def blob4 : Option ParseOutcome :=
  some (ParseOutcome.ok
    { flags := some [], counters := none, inventory := [], roomStates := none,
      currentRoom := "" })

/-- A well-shaped stored blob whose inventory lists the same item twice. -/
def blob7 : Option ParseOutcome :=
  some (ParseOutcome.ok
    { flags := some [], counters := some [], inventory := [dupItem, dupItem],
      roomStates := some [], currentRoom := "jungle" })

/-- The store produced by loading `blob7` into a fresh store. -/
def s7 : GState := (GState.empty.load blob7).snd

/-! ### Helper lemmas -/

/-- `find?` only depends on the predicate's values on the list. -/
lemma findCongr {α : Type} {p q : α → Bool} :
    ∀ (l : List α), (∀ a ∈ l, p a = q a) → l.find? p = l.find? q
  | [], _ => rfl
  | a :: l, h => by
    have ha := h a (List.mem_cons_self a l)
    by_cases hp : p a = true
    · rw [List.find?_cons_of_pos _ hp, List.find?_cons_of_pos _ (ha ▸ hp)]
    · have hp' : p a = false := Bool.eq_false_iff.mpr hp
      rw [List.find?_cons_of_neg _ hp, List.find?_cons_of_neg _ (by rw [← ha]; exact hp)]
      exact findCongr l (fun a ha => h a (List.mem_cons_of_mem _ ha))

/-- The second-pass predicate of `findAction` coincides with the spec's
generic-match predicate. -/
lemma pass2_eq_specGeneric (s : GState) (verb : Verb) (heldItemId : Option String)
    (a : HotspotAction) :
    (a.verb == verb && actionEnabled s a &&
      !(truthy a.requiresItem && a.requiresItem != heldItemId))
    = specGenericMatch s verb heldItemId a := by
  unfold specGenericMatch
  cases hreq : a.requiresItem with
  | none => simp [truthy]
  | some r =>
    cases hx : (r == "") <;> cases hy : (some r == heldItemId) <;>
      simp [truthy, hx, hy, bne]

/-! ### C1 -/

/-- C1 (corrected): `findAction`/`getAction` realise exactly the two-step
precedence order of the spec, once "a held item is present" and
"`requiresItem` (if any)" are read through JS truthiness — an empty-string
held id or requirement counts as absent.  `findActionSpec` is the
resolution order written from the (amended) spec wording. -/
theorem C1_findAction_refines_spec (actions : List HotspotAction) (s : GState)
    (verb : Verb) (heldItemId : Option String) :
    findAction actions s verb heldItemId = findActionSpec actions s verb heldItemId := by
  unfold findAction findActionSpec
  have hgen := findCongr actions
    (fun a _ => pass2_eq_specGeneric s verb heldItemId a)
  cases ht : truthy heldItemId with
  | false => simpa [ht] using hgen
  | true =>
    have heq : (fun (a : HotspotAction) =>
        a.verb == verb && a.requiresItem == heldItemId && actionEnabled s a)
        = specItemMatch s verb heldItemId := rfl
    simp only [ht, if_true, heq, Bool.true_and]
    cases hf : actions.find? (specItemMatch s verb heldItemId) with
    | some a =>
      have hany : actions.any (specItemMatch s verb heldItemId) = true :=
        List.any_eq_true.mpr ⟨a, List.mem_of_find?_eq_some hf, List.find?_some hf⟩
      simp [hf, hany]
    | none =>
      have hany : actions.any (specItemMatch s verb heldItemId) = false := by
        rw [Bool.eq_false_iff]
        intro hcontra
        obtain ⟨a, hmem, hp⟩ := List.any_eq_true.mp hcontra
        rw [List.find?_eq_none] at hf
        exact (hf a hmem) hp
      simp only [hf, hany, Bool.and_false, if_false]
      exact hgen

/-- C1 counterexample: with the empty string as held-item id (a present
value in TypeScript, but falsy), an action whose `requiresItem` equals the
held id, with a passing enabled check and a matching verb, is *not*
returned — the first-pass search is skipped and the earlier generic action
wins, contradicting the claimed precedence. -/
theorem C1_counterexample :
    iAct.verb = Verb.USE ∧ iAct.requiresItem = some "" ∧ iAct.enabled = none ∧
    findAction [gAct, iAct] GState.empty Verb.USE (some "") ≠ some iAct := by
  refine ⟨rfl, rfl, rfl, fun hcontra => ?_⟩
  have hg : findAction [gAct, iAct] GState.empty Verb.USE (some "") = some gAct := rfl
  rw [hg] at hcontra
  have hresp : gAct.response = iAct.response :=
    congrArg HotspotAction.response (Option.some.inj hcontra)
  exact absurd hresp (by decide)

/-! ### C2 -/

/-- The action returned by `findAction` satisfied the first-pass or the
second-pass predicate. -/
lemma findAction_mem_pred (actions : List HotspotAction) (s : GState) (verb : Verb)
    (held : Option String) (a : HotspotAction)
    (hfound : findAction actions s verb held = some a) :
    (a.verb == verb && a.requiresItem == held && actionEnabled s a) = true ∨
    (a.verb == verb && actionEnabled s a &&
      !(truthy a.requiresItem && a.requiresItem != held)) = true := by
  unfold findAction at hfound
  cases ht : truthy held with
  | false =>
    simp only [ht, if_false, Bool.false_eq_true] at hfound
    right
    have hp := List.find?_some hfound
    exact hp
  | true =>
    simp only [ht, if_true] at hfound
    cases hp1 : actions.find? (fun x =>
        x.verb == verb && x.requiresItem == held && actionEnabled s x) with
    | some b =>
      rw [hp1] at hfound
      have hba : b = a := by simpa using hfound
      have hp := List.find?_some hp1
      left; exact hba ▸ hp
    | none =>
      rw [hp1] at hfound
      simp only [] at hfound
      right
      have hp := List.find?_some hfound
      exact hp

/-- C2 (corrected): an action requiring a *non-empty* item id X is never
the action `executeAction` resolves and runs when the held id differs
from X; and when no action matches at all while an enabled item-requiring
action exists, `executeAction` answers with that action's own
missing-item response and leaves the world (hence the game state store)
untouched.  (An empty-string `requiresItem` is falsy in the source and
acts as no requirement — see the counterexample.) -/
theorem C2_requiresItem_guard (h : Hotspot) (w : World) (verb : Verb)
    (heldItemId : Option String) (a : HotspotAction) (X : String)
    (hmem : a ∈ h.actions) (hverb : a.verb = verb)
    (hreq : a.requiresItem = some X) (hX : X ≠ "")
    (hheld : heldItemId ≠ some X) :
    findAction h.actions w.game verb heldItemId ≠ some a ∧
    (actionEnabled w.game a = true →
      findAction h.actions w.game verb heldItemId = none →
      (∃ c ∈ h.actions, c.verb = verb ∧ truthy c.requiresItem = true ∧
        actionEnabled w.game c = true ∧
        (executeAction h verb heldItemId w).fst = c.response) ∧
      (executeAction h verb heldItemId w).snd = w) := by
  constructor
  · intro hcontra
    rcases findAction_mem_pred h.actions w.game verb heldItemId a hcontra with hp | hp
    · rw [hreq] at hp
      simp only [Bool.and_eq_true] at hp
      exact hheld (eq_of_beq hp.1.2).symm
    · rw [hreq] at hp
      simp only [Bool.and_eq_true] at hp
      have h2 := hp.2
      have htr : truthy (some X) = true := by simp [truthy, hX]
      have hne : ((some X : Option String) != heldItemId) = true :=
        bne_iff_ne.mpr (fun hc => hheld hc.symm)
      rw [htr, hne] at h2
      simp at h2
  · intro hen hnone
    have hpredA : (a.verb == verb && actionEnabled w.game a) = true := by
      simp [hverb, hen]
    cases hfa : h.actions.find? (fun b => b.verb == verb && actionEnabled w.game b) with
    | none =>
      rw [List.find?_eq_none] at hfa
      exact absurd hpredA (by simpa using hfa a hmem)
    | some b =>
      have hpredI : (a.verb == verb && truthy a.requiresItem && actionEnabled w.game a) = true := by
        simp [hverb, hen, hreq, truthy, hX]
      cases hic : h.actions.find? (fun c =>
          c.verb == verb && truthy c.requiresItem && actionEnabled w.game c) with
      | none =>
        rw [List.find?_eq_none] at hic
        exact absurd hpredI (by simpa using hic a hmem)
      | some c =>
        have hcp := List.find?_some hic
        have hcmem := List.mem_of_find?_eq_some hic
        have hexec : executeAction h verb heldItemId w = (c.response, w) := by
          simp only [executeAction, hfa, hnone, hic]
        simp only [Bool.and_eq_true] at hcp
        have hcv : c.verb = verb := eq_of_beq hcp.1.1
        have hct : truthy c.requiresItem = true := hcp.1.2
        have hce : actionEnabled w.game c = true := hcp.2
        exact ⟨⟨c, hcmem, hcv, hct, hce, by rw [hexec]⟩, by rw [hexec]⟩

/-- C2 witness: the locked door requiring a key, approached holding a
rock: the key action is never resolved, and the interaction answers with
the door's own missing-item line, leaving the world unchanged. -/
theorem C2_requiresItem_guard_witness :
    doorAction ∈ door.actions ∧
    findAction door.actions wDoor.game Verb.USE (some "rock") ≠ some doorAction ∧
    ((∃ c ∈ door.actions, c.verb = Verb.USE ∧ truthy c.requiresItem = true ∧
        actionEnabled wDoor.game c = true ∧
        (executeAction door Verb.USE (some "rock") wDoor).fst = c.response) ∧
      (executeAction door Verb.USE (some "rock") wDoor).snd = wDoor) := by
  have hm : doorAction ∈ door.actions := List.mem_singleton.mpr rfl
  have hthm := C2_requiresItem_guard door wDoor Verb.USE (some "rock") doorAction "key"
    hm rfl rfl (by decide) (by decide)
  exact ⟨hm, hthm.1, hthm.2 rfl rfl⟩

/-- An action whose `requiresItem` is the empty string — set, but falsy. -/
def esAct : HotspotAction :=
  { verb := Verb.USE, response := "it works", requiresItem := some "",
    onExecute := some [GEffect.setFlag "fired" true] }

/-- A hotspot carrying only `esAct`. -/
def esHot : Hotspot := { hotspotId := "es", hotspotName := "ES", actions := [esAct] }

/-- A scene holding only `esHot`. -/
def wES : World := { game := GState.empty, hotspots := [esHot], hovered := none }

/-- C2 counterexample: an action whose `requiresItem` is set to the empty
string executes its `onExecute` side effect (the `fired` flag is set) even
though the caller holds a different item — the falsy requirement is
treated as no requirement at all, contradicting the claim as stated. -/
theorem C2_counterexample :
    esAct.requiresItem = some "" ∧ (some "rock" : Option String) ≠ some "" ∧
    findAction esHot.actions wES.game Verb.USE (some "rock") = some esAct ∧
    (executeAction esHot Verb.USE (some "rock") wES).snd.game.getFlag "fired" = true :=
  ⟨rfl, by decide, rfl, rfl⟩

/-! ### C6 -/

/-- A store without an item of id `i` has no inventory entry with that id. -/
lemma hasItem_false_filter (s : GState) (i : String) (h : s.hasItem i = false) :
    s.inventory.filter (fun c => c.id == i) = [] := by
  rw [List.filter_eq_nil_iff]
  intro c hc
  unfold GState.hasItem at h
  rw [Bool.eq_false_iff] at h
  intro hp
  exact h (List.any_eq_true.mpr ⟨c, hc, hp⟩)

/-- A store with an item of id `i` has at least one entry with that id. -/
lemma hasItem_true_filter (s : GState) (i : String) (h : s.hasItem i = true) :
    1 ≤ (s.inventory.filter (fun c => c.id == i)).length := by
  unfold GState.hasItem at h
  obtain ⟨c, hc, hp⟩ := List.any_eq_true.mp h
  have : c ∈ s.inventory.filter (fun c => c.id == i) := List.mem_filter.mpr ⟨hc, hp⟩
  exact List.length_pos.mpr (List.ne_nil_of_mem this)

/-- C6 (corrected): on a store holding at most one entry with A's id —
which every store reachable through the API satisfies — adding A twice
leaves exactly one entry with A's id, and the second call returns `false`
without mutating the store.  (On a store already holding several entries
with A's id both calls are rejected no-ops and the duplicates remain, see
the counterexample.) -/
theorem C6_add_twice (s : GState) (A : InventoryItem)
    (hcount : (s.inventory.filter (fun c => c.id == A.id)).length ≤ 1) :
    ((((s.addItem A).snd).addItem A).snd.inventory.filter (fun c => c.id == A.id)).length = 1 ∧
    ((s.addItem A).snd).addItem A = (false, (s.addItem A).snd) := by
  cases hh : s.hasItem A.id with
  | true =>
    have h1 : s.addItem A = (false, s) := by simp [GState.addItem, hh]
    have hlen : (s.inventory.filter (fun c => c.id == A.id)).length = 1 :=
      Nat.le_antisymm hcount (hasItem_true_filter s A.id hh)
    rw [h1]
    exact ⟨by rw [h1]; exact hlen, by simp [GState.addItem, hh]⟩
  | false =>
    have h1 : s.addItem A = (true, { s with inventory := s.inventory ++ [A] }) := by
      simp [GState.addItem, hh]
    have hmem : ({ s with inventory := s.inventory ++ [A] } : GState).hasItem A.id = true := by
      unfold GState.hasItem
      exact List.any_eq_true.mpr ⟨A, by simp, by simp⟩
    have h2 : ({ s with inventory := s.inventory ++ [A] } : GState).addItem A
        = (false, { s with inventory := s.inventory ++ [A] }) := by
      simp [GState.addItem, hmem]
    rw [h1]
    refine ⟨?_, h2⟩
    rw [h2]
    simp only [List.filter_append]
    rw [hasItem_false_filter s A.id hh]
    simp

/-- C6 witness: adding the same item twice to a fresh store. -/
theorem C6_add_twice_witness :
    (GState.empty.inventory.filter (fun c => c.id == dupItem.id)).length ≤ 1 ∧
    ((((GState.empty.addItem dupItem).snd).addItem dupItem).snd.inventory.filter
      (fun c => c.id == dupItem.id)).length = 1 ∧
    ((GState.empty.addItem dupItem).snd).addItem dupItem
      = (false, (GState.empty.addItem dupItem).snd) := by
  have h := C6_add_twice GState.empty dupItem (by decide)
  exact ⟨by decide, h.1, h.2⟩

/-- C6 counterexample: on a store whose inventory already holds the same
item twice (a legal value of the state type, though unreachable through
the API), both `addItem` calls are rejected and two entries with A's id
remain — the claim's "exactly one" fails for this store state. -/
theorem C6_counterexample :
    ((((sDup.addItem dupItem).snd).addItem dupItem).snd.inventory.filter
      (fun c => c.id == dupItem.id)).length = 2 ∧
    ¬((((sDup.addItem dupItem).snd).addItem dupItem).snd.inventory.filter
      (fun c => c.id == dupItem.id)).length = 1 := by decide

/-! ### C4 -/

/-- C4 (code bug): the absent-slot and unparseable-blob paths do leave the
store untouched, but a blob that parses into an object carrying only a
`flags` field makes `load` assign the new flags *before*
`Object.entries(saveData.counters)` throws; the catch then returns
`false` with the store's flags already clobbered — contradicting the
spec's "load failure returns false and leaves existing state untouched". -/
theorem C4_load_partial_clobber :
    s4.load none = (false, s4) ∧
    s4.load (some ParseOutcome.fail) = (false, s4) ∧
    (s4.load blob4).fst = false ∧
    (s4.load blob4).snd.flags = [] ∧
    (s4.load blob4).snd ≠ s4 := by decide

/-! ### C7 -/

/-- `addItem` preserves uniqueness of inventory ids. -/
lemma nodupIds_addItem (s : GState) (item : InventoryItem)
    (h : (s.inventory.map (fun c => c.id)).Nodup) :
    (((s.addItem item).snd).inventory.map (fun c => c.id)).Nodup := by
  cases hh : s.hasItem item.id with
  | true => simpa [GState.addItem, hh] using h
  | false =>
    have hnotin : item.id ∉ s.inventory.map (fun c => c.id) := by
      intro hmem
      obtain ⟨c, hc, hcid⟩ := List.mem_map.mp hmem
      unfold GState.hasItem at hh
      rw [Bool.eq_false_iff] at hh
      exact hh (List.any_eq_true.mpr ⟨c, hc, by simp [hcid]⟩)
    simp only [GState.addItem, hh, Bool.false_eq_true, if_false, List.map_append]
    exact List.Nodup.append h (List.nodup_singleton _)
      ((List.disjoint_singleton).mpr hnotin)

/-- Removing the first entry with a given id yields a sublist. -/
lemma removeFirstById_sublist (l : List InventoryItem) (i : String) :
    (removeFirstById l i).Sublist l := by
  induction l with
  | nil => exact List.Sublist.refl _
  | cons x rest ih =>
    unfold removeFirstById
    by_cases hx : (x.id == i) = true
    · simp only [hx, if_true]
      exact List.sublist_cons_self x rest
    · simp only [Bool.eq_false_iff.mpr hx, Bool.false_eq_true, if_false]
      exact List.Sublist.cons₂ x ih

/-- `removeItem` preserves uniqueness of inventory ids. -/
lemma nodupIds_removeItem (s : GState) (i : String)
    (h : (s.inventory.map (fun c => c.id)).Nodup) :
    (((s.removeItem i).snd).inventory.map (fun c => c.id)).Nodup := by
  cases hh : s.hasItem i with
  | true =>
    simp only [GState.removeItem, hh, if_true]
    exact h.sublist (List.Sublist.map _ (removeFirstById_sublist s.inventory i))
  | false => simpa [GState.removeItem, hh] using h

/-- `combineItems` preserves uniqueness of inventory ids. -/
lemma nodupIds_combineItems (s : GState) (i1 i2 : String) (r : InventoryItem)
    (h : (s.inventory.map (fun c => c.id)).Nodup) :
    (((s.combineItems i1 i2 r).snd).inventory.map (fun c => c.id)).Nodup := by
  unfold GState.combineItems
  cases hg1 : s.getItem i1 with
  | none => simpa using h
  | some a =>
    cases hg2 : s.getItem i2 with
    | none => simpa using h
    | some b =>
      dsimp only
      by_cases hcc : ((a.combinableWith.getD []).contains i2 ||
          (b.combinableWith.getD []).contains i1) = true
      · simp only [hcc, if_true]
        exact nodupIds_addItem _ _ (nodupIds_removeItem _ _ (nodupIds_removeItem _ _ h))
      · simp only [Bool.eq_false_iff.mpr hcc, Bool.false_eq_true, if_false]
        exact h

/-- `load` preserves uniqueness of inventory ids whenever the loaded
blob's own inventory has unique ids (the failure paths before the
inventory assignment keep the old inventory; the paths at or after it
install the blob's). -/
lemma nodupIds_load (s : GState) (blob : Option ParseOutcome)
    (h : (s.inventory.map (fun c => c.id)).Nodup) (hblob : blobInventoryOk blob) :
    (((s.load blob).snd).inventory.map (fun c => c.id)).Nodup := by
  match blob with
  | none => exact h
  | some ParseOutcome.fail => exact h
  | some (ParseOutcome.ok d) =>
    have hd : (d.inventory.map (fun c => c.id)).Nodup := by
      simpa [blobInventoryOk] using hblob
    cases hdf : d.flags with
    | none => simp only [GState.load, hdf]; exact h
    | some fl =>
      cases hdc : d.counters with
      | none => simp only [GState.load, hdf, hdc]; exact h
      | some cs =>
        cases hdr : d.roomStates with
        | none => simp only [GState.load, hdf, hdc, hdr]; exact hd
        | some rs => simp only [GState.load, hdf, hdc, hdr]; exact hd

/-- C7 (corrected): inventory ids stay pairwise distinct in every store
state reachable through `addItem`, `removeItem`, `combineItems`, `reset`
and `load` — provided every loaded blob's inventory itself has unique ids
(which every blob written by `save` does).  `load` of a tampered blob
installs its inventory verbatim, so the unconditional claim fails — see
the counterexample. -/
theorem C7_inventory_ids_unique (s : GState) (h : ReachableU s) :
    (s.inventory.map (fun c => c.id)).Nodup := by
  induction h with
  | init => simp [GState.empty]
  | addItem item _ ih => exact nodupIds_addItem _ item ih
  | removeItem i _ ih => exact nodupIds_removeItem _ i ih
  | combineItems i1 i2 r _ ih => exact nodupIds_combineItems _ i1 i2 r ih
  | load blob _ hblob ih => exact nodupIds_load _ blob ih hblob
  | reset _ ih => simp [GState.reset, GState.empty]

/-- C7 witness: the store reached by one `addItem` on a fresh store. -/
theorem C7_inventory_ids_unique_witness :
    ReachableU (GState.empty.addItem dupItem).snd ∧
    (((GState.empty.addItem dupItem).snd).inventory.map (fun c => c.id)).Nodup :=
  ⟨ReachableU.addItem dupItem ReachableU.init,
   C7_inventory_ids_unique _ (ReachableU.addItem dupItem ReachableU.init)⟩

/-- C7 counterexample: loading a well-shaped blob whose inventory lists
the same item twice is a successful `load` through the public API, and it
leaves the store with two inventory entries sharing an id. -/
theorem C7_counterexample :
    Reachable s7 ∧ (GState.empty.load blob7).fst = true ∧
    ¬ (s7.inventory.map (fun c => c.id)).Nodup :=
  ⟨Reachable.load blob7 Reachable.init, by decide, by decide⟩

/-! ### C3 -/

/-- Under unique inventory ids, `getItem` of a member's id finds exactly
that member. -/
lemma find_id_of_mem_nodup (l : List InventoryItem) (A : InventoryItem)
    (hnd : (l.map (fun c => c.id)).Nodup) (hA : A ∈ l) :
    l.find? (fun c => c.id == A.id) = some A := by
  induction l with
  | nil => cases hA
  | cons x rest ih =>
    rcases List.mem_cons.mp hA with hAx | hArest
    · subst hAx
      exact List.find?_cons_of_pos _ (by simp)
    · have hxid : (x.id == A.id) = false := by
        rw [List.map_cons, List.nodup_cons] at hnd
        rw [Bool.eq_false_iff]
        intro hbeq
        exact hnd.1 ((eq_of_beq hbeq) ▸ List.mem_map.mpr ⟨A, hArest, rfl⟩)
      rw [List.find?_cons_of_neg _ (by simp [hxid])]
      exact ih (by rw [List.map_cons, List.nodup_cons] at hnd; exact hnd.2) hArest

/-- Under unique ids, removing the first entry with id `i` is filtering
out the (at most one) entry with that id. -/
lemma removeFirstById_eq_filter (l : List InventoryItem) (i : String)
    (hnd : (l.map (fun c => c.id)).Nodup) :
    removeFirstById l i = l.filter (fun c => !(c.id == i)) := by
  induction l with
  | nil => rfl
  | cons x rest ih =>
    rw [List.map_cons, List.nodup_cons] at hnd
    unfold removeFirstById
    by_cases hx : (x.id == i) = true
    · simp only [hx, if_true, List.filter_cons, Bool.not_true, Bool.false_eq_true, if_false]
      have : ∀ c ∈ rest, (!(c.id == i)) = true := by
        intro c hc
        have : c.id ≠ x.id := by
          intro hcx
          exact hnd.1 (hcx ▸ List.mem_map.mpr ⟨c, hc, rfl⟩)
        simp [eq_of_beq hx ▸ this]
      rw [List.filter_eq_self.mpr this]
    · have hx' : (x.id == i) = false := Bool.eq_false_iff.mpr hx
      simp only [hx', Bool.false_eq_true, if_false, List.filter_cons, Bool.not_false, if_true]
      rw [ih hnd.2]

/-- C3 (corrected): on a store with unique inventory ids holding both A
and B, where no third entry carries R's id, `combineItems(A.id, B.id, R)`
succeeds, drops A and B and appends R exactly when one of the two items
declares the other in `combinableWith`; otherwise it returns `false` and
the store — in particular the inventory — is exactly as before.  (When a
surviving entry already carries R's id, the internal `addItem R` is
silently rejected while the call still returns `true`, so the
unconditional claim fails — see the counterexample.) -/
theorem C3_combine_law (s : GState) (A B R : InventoryItem)
    (hnd : (s.inventory.map (fun c => c.id)).Nodup)
    (hA : A ∈ s.inventory) (hB : B ∈ s.inventory)
    (hR : ∀ c ∈ s.inventory, c.id = R.id → c = A ∨ c = B) :
    (((A.combinableWith.getD []).contains B.id ||
      (B.combinableWith.getD []).contains A.id) = true →
        (s.combineItems A.id B.id R).fst = true ∧
        (s.combineItems A.id B.id R).snd.inventory =
          s.inventory.filter (fun c => !(c.id == A.id || c.id == B.id)) ++ [R]) ∧
    (((A.combinableWith.getD []).contains B.id ||
      (B.combinableWith.getD []).contains A.id) = false →
        (s.combineItems A.id B.id R).fst = false ∧
        (s.combineItems A.id B.id R).snd = s) := by
  have hgA : s.getItem A.id = some A := find_id_of_mem_nodup s.inventory A hnd hA
  have hgB : s.getItem B.id = some B := find_id_of_mem_nodup s.inventory B hnd hB
  constructor
  · intro hcc
    have hcomb : s.combineItems A.id B.id R
        = (true, ((((s.removeItem A.id).snd.removeItem B.id).snd).addItem R).snd) := by
      simp only [GState.combineItems, hgA, hgB, hcc, if_true]
    have hhA : s.hasItem A.id = true :=
      List.any_eq_true.mpr ⟨A, hA, by simp⟩
    have hs1 : (s.removeItem A.id).snd
        = { s with inventory := s.inventory.filter (fun c => !(c.id == A.id)) } := by
      simp only [GState.removeItem, hhA, if_true]
      rw [removeFirstById_eq_filter s.inventory A.id hnd]
    have hnd1 : ((s.inventory.filter (fun c => !(c.id == A.id))).map (fun c => c.id)).Nodup :=
      hnd.sublist (List.Sublist.map _ (List.filter_sublist _))
    have hfilter2 : (s.inventory.filter (fun c => !(c.id == A.id))).filter
          (fun c => !(c.id == B.id))
        = s.inventory.filter (fun c => !(c.id == A.id || c.id == B.id)) := by
      rw [List.filter_filter]
      exact List.filter_congr (fun c _ => by
        cases hca : (c.id == A.id) <;> cases hcb : (c.id == B.id) <;> simp [hca, hcb])
    have hs2 : ((s.removeItem A.id).snd.removeItem B.id).snd
        = { s with inventory :=
              s.inventory.filter (fun c => !(c.id == A.id || c.id == B.id)) } := by
      rw [hs1]
      cases hh1 : ({ s with inventory :=
          s.inventory.filter (fun c => !(c.id == A.id)) } : GState).hasItem B.id with
      | true =>
        simp only [GState.removeItem, hh1, if_true]
        rw [removeFirstById_eq_filter _ B.id hnd1, hfilter2]
      | false =>
        simp only [GState.removeItem, hh1, Bool.false_eq_true, if_false]
        have hself : (s.inventory.filter (fun c => !(c.id == A.id))).filter
              (fun c => !(c.id == B.id))
            = s.inventory.filter (fun c => !(c.id == A.id)) := by
          apply List.filter_eq_self.mpr
          intro c hc
          unfold GState.hasItem at hh1
          rw [Bool.eq_false_iff] at hh1
          simp only [Bool.not_eq_true']
          rw [Bool.eq_false_iff]
          intro hcb
          exact hh1 (List.any_eq_true.mpr ⟨c, hc, hcb⟩)
        rw [← hfilter2, hself]
    have hh3 : ({ s with inventory :=
        s.inventory.filter (fun c => !(c.id == A.id || c.id == B.id)) } : GState).hasItem
          R.id = false := by
      unfold GState.hasItem
      rw [Bool.eq_false_iff]
      intro hany
      obtain ⟨c, hc, hcid⟩ := List.any_eq_true.mp hany
      have hcmem := List.mem_filter.mp hc
      rcases hR c hcmem.1 (eq_of_beq hcid) with hcA | hcB
      · subst hcA
        simp at hcmem
      · subst hcB
        simp at hcmem
    constructor
    · rw [hcomb]
    · rw [hcomb, hs2]
      simp only [GState.addItem, hh3, Bool.false_eq_true, if_false]
  · intro hcc
    have hcomb : s.combineItems A.id B.id R = (false, s) := by
      simp only [GState.combineItems, hgA, hgB, hcc, Bool.false_eq_true, if_false]
    rw [hcomb]
    exact ⟨rfl, rfl⟩


/-- C3 witness: combining the flower (which declares the rope) with the
rope into the hook on a store holding exactly those two items. -/
theorem C3_combine_law_witness :
    ((sCombine.inventory.map (fun c => c.id)).Nodup ∧
      cFlower ∈ sCombine.inventory ∧ cRope ∈ sCombine.inventory ∧
      ((cFlower.combinableWith.getD []).contains cRope.id ||
        (cRope.combinableWith.getD []).contains cFlower.id) = true) ∧
    (sCombine.combineItems cFlower.id cRope.id cHook).fst = true ∧
    (sCombine.combineItems cFlower.id cRope.id cHook).snd.inventory =
      sCombine.inventory.filter
        (fun c => !(c.id == cFlower.id || c.id == cRope.id)) ++ [cHook] := by
  have h := C3_combine_law sCombine cFlower cRope cHook
    (by decide) (by decide) (by decide) (by decide)
  have h1 := h.1 (by decide)
  exact ⟨⟨by decide, by decide, by decide, by decide⟩, h1.1, h1.2⟩

/-- C3 counterexample: with a decoy item already carrying the result's id,
combining the flower and the rope returns `true` and removes both inputs,
but the result item R is *not* added (`addItem` rejects the duplicate id),
so the claim's "returns true, removes both A and B, and adds R" fails on
this store state. -/
theorem C3_counterexample :
    cFlower ∈ sDecoy.inventory ∧ cRope ∈ sDecoy.inventory ∧
    (cFlower.combinableWith.getD []).contains cRope.id = true ∧
    (sDecoy.combineItems cFlower.id cRope.id cHook).fst = true ∧
    cHook ∉ (sDecoy.combineItems cFlower.id cRope.id cHook).snd.inventory := by
  decide

/-! ### C8 -/

/-- Membership in the verb accumulation of `getAvailableVerbs`, for an
arbitrary starting accumulator. -/
lemma mem_availableVerbs_aux (s : GState) :
    ∀ (acts : List HotspotAction) (init : List Verb) (v : Verb),
      (v ∈ acts.foldl (fun verbs a =>
        if actionEnabled s a then
          (if verbs.contains a.verb then verbs else verbs ++ [a.verb])
        else verbs) init)
      ↔ (v ∈ init ∨ ∃ a ∈ acts, a.verb = v ∧ actionEnabled s a = true)
  | [], init, v => by simp
  | a :: rest, init, v => by
    simp only [List.foldl_cons]
    rw [mem_availableVerbs_aux s rest _ v]
    cases he : actionEnabled s a with
    | false =>
      simp only [Bool.false_eq_true, if_false]
      constructor
      · rintro (h | h)
        · exact Or.inl h
        · exact Or.inr ⟨h.choose, List.mem_cons_of_mem a h.choose_spec.1, h.choose_spec.2⟩
      · rintro (h | ⟨b, hb, hbv, hbe⟩)
        · exact Or.inl h
        · rcases List.mem_cons.mp hb with rfl | hb'
          · rw [he] at hbe; cases hbe
          · exact Or.inr ⟨b, hb', hbv, hbe⟩
    | true =>
      simp only [if_true]
      cases hc : init.contains a.verb with
      | true =>
        simp only [if_true]
        have hmem : a.verb ∈ init := List.elem_iff.mp hc
        constructor
        · rintro (h | ⟨b, hb, hbv, hbe⟩)
          · exact Or.inl h
          · exact Or.inr ⟨b, List.mem_cons_of_mem a hb, hbv, hbe⟩
        · rintro (h | ⟨b, hb, hbv, hbe⟩)
          · exact Or.inl h
          · rcases List.mem_cons.mp hb with rfl | hb'
            · exact Or.inl (hbv ▸ hmem)
            · exact Or.inr ⟨b, hb', hbv, hbe⟩
      | false =>
        simp only [Bool.false_eq_true, if_false]
        constructor
        · rintro (h | ⟨b, hb, hbv, hbe⟩)
          · rcases List.mem_append.mp h with h' | h'
            · exact Or.inl h'
            · exact Or.inr ⟨a, List.mem_cons_self a rest, (List.mem_singleton.mp h').symm, he⟩
          · exact Or.inr ⟨b, List.mem_cons_of_mem a hb, hbv, hbe⟩
        · rintro (h | ⟨b, hb, hbv, hbe⟩)
          · exact Or.inl (List.mem_append.mpr (Or.inl h))
          · rcases List.mem_cons.mp hb with rfl | hb'
            · exact Or.inl (List.mem_append.mpr (Or.inr (List.mem_singleton.mpr hbv.symm)))
            · exact Or.inr ⟨b, hb', hbv, hbe⟩

/-- The verb accumulation never introduces duplicates. -/
lemma nodup_availableVerbs_aux (s : GState) :
    ∀ (acts : List HotspotAction) (init : List Verb), init.Nodup →
      (acts.foldl (fun verbs a =>
        if actionEnabled s a then
          (if verbs.contains a.verb then verbs else verbs ++ [a.verb])
        else verbs) init).Nodup
  | [], _, h => h
  | a :: rest, init, h => by
    simp only [List.foldl_cons]
    apply nodup_availableVerbs_aux s rest
    cases he : actionEnabled s a with
    | false => simpa using h
    | true =>
      simp only [if_true]
      cases hc : init.contains a.verb with
      | true => simpa using h
      | false =>
        simp only [Bool.false_eq_true, if_false]
        have hnotin : a.verb ∉ init := by
          intro hmem
          rw [Bool.eq_false_iff] at hc
          exact hc (List.elem_iff.mpr hmem)
        exact List.Nodup.append h (List.nodup_singleton _)
          ((List.disjoint_singleton).mpr hnotin)

/-- C8 (confirmed): `getAvailableVerbs` returns, without duplicates,
exactly the verbs carried by at least one action whose enabled check
passes, independently of the held item (the argument is ignored, so the
item requirement never filters a verb out); and as a pure function of the
action list and game state, repeated calls without intervening state
changes return the same set. -/
theorem C8_availableVerbs_exact (acts : List HotspotAction) (s : GState)
    (held held2 : Option String) (v : Verb) :
    (v ∈ getAvailableVerbs acts s held ↔
      ∃ a ∈ acts, a.verb = v ∧ actionEnabled s a = true) ∧
    (getAvailableVerbs acts s held).Nodup ∧
    getAvailableVerbs acts s held = getAvailableVerbs acts s held2 := by
  refine ⟨?_, nodup_availableVerbs_aux s acts [] List.nodup_nil, rfl⟩
  rw [getAvailableVerbs, mem_availableVerbs_aux s acts [] v]
  simp

/-! ### C9 -/

/-- C9 (confirmed): with the response post-processor disabled, `generate`
returns the base response at once — for *every* network oracle, i.e.
without consulting the network — leaving the generator state (cache)
untouched; and `interact` on a hovered hotspot returns exactly the raw
base response produced by that hotspot's `executeAction`. -/
theorem C9_disabled_passthrough (net : GenParams → NetResult) (rg : RGState)
    (hdis : rg.enabled = false) :
    (∀ p, generate net rg p = (p.baseResponse, rg)) ∧
    (∀ (w : World) (hid : String) (h : Hotspot) (verb : Verb) (held : Option String),
      w.hovered = some hid → w.find hid = some h →
      (interact w rg net verb held).fst = some (executeAction h verb held w).fst) := by
  have hgen : ∀ p, generate net rg p = (p.baseResponse, rg) := by
    intro p
    simp [generate, hdis]
  refine ⟨hgen, ?_⟩
  intro w hid h verb held hhov hfind
  simp only [interact, hhov, hfind, hgen]

/-- C9 witness: the disabled generator on a failing network passes the
vines hotspot's LOOK rejection through `interact` unchanged. -/
theorem C9_disabled_passthrough_witness :
    rgOff.enabled = false ∧
    generate netDown rgOff
      { verb := "LOOK", target := "Thick Vines", baseResponse := "hm" }
      = ("hm", rgOff) ∧
    w1.hovered = some "vines" ∧ w1.find "vines" = some vines ∧
    (interact w1 rgOff netDown Verb.LOOK none).fst
      = some (executeAction vines Verb.LOOK none w1).fst := by
  have h := C9_disabled_passthrough netDown rgOff rfl
  exact ⟨rfl, h.1 _, rfl, rfl, h.2 w1 "vines" vines Verb.LOOK none rfl rfl⟩

/-! ### C5 -/

/-- The world after hovering the vines and cutting them with the machete
(the action's side effect sets `vines_cut` and disables the hotspot). -/
def w2 : World := (interact w1 rgOff netDown Verb.USE (some "machete")).snd.fst

/-- C5 (code bug): the vines scenario evaluated on the embedding.  The
interaction succeeds, sets the flag and disables the hotspot; but nothing
clears the manager's `hoveredHotspot` and `interact` checks only for a
non-null hovered reference, never `getEnabled()`, so `getHovered()` still
returns the disabled hotspot and a subsequent `interact` still routes to
it and answers (here with the canned rejection, since the enabled
predicate now fails) instead of returning none.  Only a pointer-out event
clears the hover, and a disabled hotspot can then no longer be hovered
(last conjunct). -/
theorem C5_stale_hover_divergence :
    (interact w1 rgOff netDown Verb.USE (some "machete")).fst
      = some "You slash through the thick vines." ∧
    w2.game.getFlag "vines_cut" = true ∧
    (w2.find "vines").map (fun h => h.isEnabled) = some false ∧
    getHovered w2 = some "vines" ∧
    (interact w2 rgOff netDown Verb.USE (some "machete")).fst ≠ none ∧
    (pointerOver (pointerOut w2 "vines") "vines").hovered = none := by
  refine ⟨rfl, rfl, rfl, rfl, ?_, rfl⟩
  intro hcontra
  have heval : (interact w2 rgOff netDown Verb.USE (some "machete")).fst
      = some (cantMsg Verb.USE) := rfl
  rw [heval] at hcontra
  exact Option.noConfusion hcontra

/-! ### C10 -/

/-- `find?` on a cons, as a single conditional equation. -/
lemma find?_cons_eq {α : Type} (p : α → Bool) (a : α) (l : List α) :
    (a :: l).find? p = if p a then some a else l.find? p := by
  by_cases hpa : p a = true
  · rw [if_pos hpa]
    exact List.find?_cons_of_pos _ hpa
  · rw [if_neg (by simpa using hpa)]
    exact List.find?_cons_of_neg _ hpa

/-- Disabling a hotspot by id commutes with looking it up by id:
`setEnabled` preserves ids. -/
lemma find_map_setEnabled (hs : List Hotspot) (hid : String) :
    (hs.map (fun h => if h.hotspotId == hid then h.setEnabled false else h)).find?
        (fun h => h.hotspotId == hid)
    = (hs.find? (fun h => h.hotspotId == hid)).map (fun h => h.setEnabled false) := by
  induction hs with
  | nil => rfl
  | cons x rest ih =>
    rw [List.map_cons]
    by_cases hx : (x.hotspotId == hid) = true
    · rw [if_pos hx]
      rw [find?_cons_eq (fun h => h.hotspotId == hid) (x.setEnabled false)
            (rest.map (fun h => if h.hotspotId == hid then h.setEnabled false else h)),
          find?_cons_eq (fun h => h.hotspotId == hid) x rest]
      have hpred : ((x.setEnabled false).hotspotId == hid) = true := hx
      rw [if_pos hpred, if_pos hx]
      rfl
    · rw [if_neg hx]
      rw [find?_cons_eq (fun h => h.hotspotId == hid) x
            (rest.map (fun h => if h.hotspotId == hid then h.setEnabled false else h)),
          find?_cons_eq (fun h => h.hotspotId == hid) x rest]
      rw [if_neg hx]
      rw [if_neg hx]
      exact ih

/-- The game-state component of one effect step depends only on the
game-state component of the input world. -/
lemma runEffect_game (e : GEffect) (w1 w2 : World) (h : w1.game = w2.game) :
    (runEffect w1 e).game = (runEffect w2 e).game := by
  cases e <;> simp [runEffect, h]

/-- As `runEffect_game`, for a whole effect list. -/
lemma runEffects_game (es : List GEffect) : ∀ (w1 w2 : World), w1.game = w2.game →
    (runEffects w1 es).game = (runEffects w2 es).game := by
  induction es with
  | nil => intro w1 w2 h; exact h
  | cons e es ih =>
    intro w1 w2 h
    exact ih (runEffect w1 e) (runEffect w2 e) (runEffect_game e w1 w2 h)

/-- The response and resulting game state of `executeAction` depend on
the world only through its game-state component. -/
lemma executeAction_game_congr (h : Hotspot) (verb : Verb) (held : Option String)
    (w1 w2 : World) (hg : w1.game = w2.game) :
    (executeAction h verb held w1).fst = (executeAction h verb held w2).fst ∧
    (executeAction h verb held w1).snd.game = (executeAction h verb held w2).snd.game := by
  unfold executeAction
  rw [hg]
  cases hfa : h.actions.find? (fun a => a.verb == verb && actionEnabled w2.game a) with
  | none => exact ⟨rfl, hg⟩
  | some a =>
    cases hm : findAction h.actions w2.game verb held with
    | none =>
      cases hia : h.actions.find? (fun c =>
          c.verb == verb && truthy c.requiresItem && actionEnabled w2.game c) with
      | none => exact ⟨rfl, hg⟩
      | some c => exact ⟨rfl, hg⟩
    | some m =>
      exact ⟨rfl, runEffects_game (m.onExecute.getD []) w1 w2 hg⟩

/-- C10 (confirmed): `executeAction` never consults the `isEnabled` flag — flipping it with `setEnabled` changes nothing about
resolution or side effects; consequently `interactWith` on a hotspot
disabled via the manager `setEnabled(id, false)` call returns the same
response and produces the same game state as on the enabled hotspot. -/
theorem C10_executeAction_ignores_disabled :
    (∀ (h : Hotspot) (b : Bool) (verb : Verb) (held : Option String) (w : World),
      executeAction (h.setEnabled b) verb held w = executeAction h verb held w) ∧
    (∀ (w : World) (hid : String) (verb : Verb) (held : Option String),
      (interactWith (runEffect w (GEffect.setHotspotEnabled hid false))
          hid verb held).fst
        = (interactWith w hid verb held).fst ∧
      ((interactWith (runEffect w (GEffect.setHotspotEnabled hid false))
          hid verb held).snd).game
        = ((interactWith w hid verb held).snd).game) := by
  constructor
  · intro h b verb held w
    rfl
  · intro w hid verb held
    have hfind : (runEffect w (GEffect.setHotspotEnabled hid false)).find hid
        = (w.find hid).map (fun h => h.setEnabled false) := by
      simp only [runEffect, World.find]
      exact find_map_setEnabled w.hotspots hid
    cases hf : w.find hid with
    | none =>
      simp only [interactWith, hfind, hf, Option.map_none']
      exact ⟨trivial, rfl⟩
    | some h =>
      simp only [interactWith, hfind, hf, Option.map_some']
      have hc := executeAction_game_congr h verb held
        (runEffect w (GEffect.setHotspotEnabled hid false)) w rfl
      have he : executeAction (h.setEnabled false) verb held
          (runEffect w (GEffect.setHotspotEnabled hid false))
          = executeAction h verb held (runEffect w (GEffect.setHotspotEnabled hid false)) := rfl
      rw [he]
      exact ⟨congrArg some hc.1, hc.2⟩
end Adventure
